import Mathlib

/-!
Verification development for the Multiscale-Parametric-t-SNE repository.

The development shallowly embeds the two Python variants of the code
(`parametric_tsne.py` at the repository root and `msp_tsne/parametric_tsne.py`)
into Lean.  Real arithmetic on IEEE doubles is modelled in two ways:

* exact rational arithmetic (`ℚ`), with the transcendental primitives
  `np.exp` / `np.log` abstracted into a `NumOps` record, for the structural
  claims (termination, invariants, matrix shape properties) that hold for
  every behaviour of those primitives; and
* an explicit IEEE-style value domain `FVal` (finite rationals plus
  `inf`, `-inf` and `nan`) for the claims about NaN propagation, where the
  hard-wired special cases (`exp` underflow to exactly `0.0`, `log 0 = -inf`,
  `0/0 = nan`, comparisons with `nan` being false) are the documented
  float64 behaviours the Python code runs under.
-/

set_option maxRecDepth 8000

namespace PTSNE

/-- Abstract numeric primitives: the embedding of `np.exp` and `np.log`
over exact rationals.  All structural theorems below are proved for every
choice of these primitives. -/
structure NumOps where
  exp : ℚ → ℚ
  log : ℚ → ℚ

/-- Embedding of `Hbeta(D, beta)` (msp_tsne/parametric_tsne.py lines 21-28,
identical to the root variant lines 25-30):
`P = np.exp(-D * beta); sumP = np.sum(P);`
`H = np.log(sumP) + beta * np.sum(D * P) / sumP; P = P / sumP`.
Note that the division by `sumP` is NOT guarded by any epsilon in the source
(the source itself carries `ACHTUNG! Divide-by-zero possible here!` comments);
over exact rationals a zero `sumP` cannot arise from a genuine exponential,
so the rational model uses total division, and the NaN behaviour is treated
separately in the `FVal` model below. -/
def Hbeta (ops : NumOps) (D : List ℚ) (beta : ℚ) : ℚ × List ℚ :=
  let P := D.map (fun d => ops.exp (-d * beta))
  let sumP := P.sum
  let H := ops.log sumP + beta * (List.zipWith (· * ·) D P).sum / sumP
  (H, P.map (fun p => p / sumP))

/-- State of the perplexity-calibration binary search in `x2p_job`
(msp variant, lines 30-62).  `betaMin`/`betaMax` are `none` while the
corresponding bracket endpoint is still infinite (`-np.inf` / `np.inf`),
mirroring the `np.isinf` tests in the source. -/
structure X2pState where
  beta : ℚ
  betaMin : Option ℚ
  betaMax : Option ℚ
  H : ℚ
  thisP : List ℚ
  tries : ℕ

/-- Loop guard of `x2p_job`:
`while tries < max_iteration and np.abs(Hdiff) > tol`. -/
def x2pCond (logU tol : ℚ) (maxIter : ℕ) (s : X2pState) : Bool :=
  decide (s.tries < maxIter) && decide (tol < |s.H - logU|)

/-- One iteration of the `x2p_job` while-loop body (msp variant, lines 44-60):
update the bracket and `beta` according to the sign of `Hdiff`, then
recompute `H, thisP` with `Hbeta` and increment `tries`. -/
def x2pStep (ops : NumOps) (D : List ℚ) (logU : ℚ) (s : X2pState) : X2pState :=
  let Hdiff := s.H - logU
  let next :=
    if 0 < Hdiff then
      match s.betaMax with
      | none => (s.beta * 2, some s.beta, s.betaMax)
      | some bM => ((s.beta + bM) / 2, some s.beta, s.betaMax)
    else
      match s.betaMin with
      | none => (s.beta / 2, s.betaMin, some s.beta)
      | some bm => ((s.beta + bm) / 2, s.betaMin, some s.beta)
  let hp := Hbeta ops D next.1
  ⟨next.1, next.2.1, next.2.2, hp.1, hp.2, s.tries + 1⟩

/-- Fuel-indexed unfolding of the `x2p_job` while-loop.  The fuel only
bounds the recursion; the faithful loop guard `x2pCond` (which already
contains `tries < max_iteration`) decides termination, and `x2p_job`
supplies `maxIter` fuel, which is always sufficient because each step
increments `tries`. -/
def x2pLoop (ops : NumOps) (D : List ℚ) (logU tol : ℚ) (maxIter : ℕ) :
    ℕ → X2pState → X2pState
  | 0, s => s
  | fuel + 1, s =>
    if x2pCond logU tol maxIter s then
      x2pLoop ops D logU tol maxIter fuel (x2pStep ops D logU s)
    else s

/-- Initial state of `x2p_job`: `beta = 1.0`, infinite bracket,
`H, thisP = Hbeta(Di, beta)`, `tries = 0`. -/
def x2pInit (ops : NumOps) (D : List ℚ) : X2pState :=
  let hp := Hbeta ops D 1
  ⟨1, none, none, hp.1, hp.2, 0⟩

/-- Embedding of `x2p_job((i, Di, logU), max_iteration, tol)` (msp variant,
lines 30-62).  The source defaults are `max_iteration=50`, `tol=1e-5`;
callers of this embedding pass them explicitly. -/
def x2p_job (ops : NumOps) (i : ℕ) (Di : List ℚ) (logU : ℚ)
    (maxIter : ℕ) (tol : ℚ) : ℕ × List ℚ :=
  (i, (x2pLoop ops Di logU tol maxIter maxIter (x2pInit ops Di)).thisP)

/-- Embedding of `sum_X = np.sum(np.square(X), axis=1)` in `x2p`
(msp variant line 69, root variant line 75): the vector of squared row
norms of the data block `X`. -/
def sum_X {n d : ℕ} (X : Fin n → Fin d → ℚ) (i : Fin n) : ℚ :=
  ∑ k, (X i k) ^ 2

/-- Embedding of `D = sum_X + (sum_X.reshape((-1, 1)) - 2 * np.dot(X, X.T))`
(msp variant line 70, root variant line 76).  Numpy broadcasting adds
`sum_X[j]` along columns and `sum_X[i]` along rows, so entry `(i, j)` is
`sum_X[j] + (sum_X[i] - 2 * (X @ X.T)[i, j])`. -/
def distMatrix {n d : ℕ} (X : Fin n → Fin d → ℚ) : Fin n → Fin n → ℚ :=
  fun i j => sum_X X j + (sum_X X i - 2 * ∑ k, X i k * X j k)

/-- Specification-side definition for claim C8: the matrix of squared
Euclidean distances `‖x_i - x_j‖²`. -/
def sqEuclidean {n d : ℕ} (X : Fin n → Fin d → ℚ) : Fin n → Fin n → ℚ :=
  fun i j => ∑ k, (X i k - X j k) ^ 2

/-- Row `i` of `D[idx].reshape((n, -1))` (msp variant lines 72-73): the
distance row of point `i` with the diagonal entry removed, remaining
entries in increasing column order. -/
def rowNoDiag {n : ℕ} (D : Fin n → Fin n → ℚ) (i : Fin n) : List ℚ :=
  ((List.finRange n).filter (fun j => decide (j ≠ i))).map (fun j => D i j)

/-- Position of column `j ≠ i` inside `rowNoDiag`: the boolean mask row
`idx[i]` is true at every `j ≠ i` in increasing order, so `j` lands at
index `j` when `j < i` and at `j - 1` otherwise. -/
def maskPos {n : ℕ} (i j : Fin n) : ℕ :=
  if (j : ℕ) < (i : ℕ) then (j : ℕ) else (j : ℕ) - 1

/-- Embedding of `x2p(X, perplexity)` (msp variant lines 64-79): the n×n
matrix `P` initialised to zeros, whose row `i` receives the calibrated
probability row `x2p_job((i, D[i], logU))[1]` at the off-diagonal
positions `idx[i]`.  `logU = np.log(perplexity)`; `x2p_job` runs with its
source defaults `max_iteration=50`, `tol=1e-5`. -/
def x2p {n d : ℕ} (ops : NumOps) (X : Fin n → Fin d → ℚ) (perplexity : ℚ) :
    Fin n → Fin n → ℚ :=
  fun i j =>
    if i = j then 0
    else ((x2p_job ops (i : ℕ) (rowNoDiag (distMatrix X) i) (ops.log perplexity)
      50 (1 / 100000)).2).getD (maskPos i j) 0

/-- Loop body of `_calculate_P` for one data block, first three steps
(msp variant lines 262-264): `P_batch = x2p(...)`, then
`P_batch[np.isnan(P_batch)] = 0` (the identity over exact rationals, where
no NaN exists), then `P_batch = P_batch + P_batch.T`. -/
def symP {n d : ℕ} (ops : NumOps) (X : Fin n → Fin d → ℚ) (perplexity : ℚ) :
    Fin n → Fin n → ℚ :=
  fun i j => x2p ops X perplexity i j + x2p ops X perplexity j i

/-- The global sum `P_batch.sum()` used by the normalisation step
(msp variant line 265). -/
def symTotal {n d : ℕ} (ops : NumOps) (X : Fin n → Fin d → ℚ)
    (perplexity : ℚ) : ℚ :=
  ∑ i, ∑ j, symP ops X perplexity i j

/-- Normalisation step `P_batch = P_batch / P_batch.sum()`
(msp variant line 265). -/
def symNormalized {n d : ℕ} (ops : NumOps) (X : Fin n → Fin d → ℚ)
    (perplexity : ℚ) : Fin n → Fin n → ℚ :=
  fun i j => symP ops X perplexity i j / symTotal ops X perplexity

/-- Embedding of the per-block body of `ParametricTSNE._calculate_P`
(msp variant lines 262-266), ending with the probability floor
`P_batch = np.maximum(P_batch, 1e-12)`.  The root variant
`calculate_P` (lines 99-103) is identical except that its floor is
`1e-8`, see `calculate_P_block`. -/
def mspCalculateP_block {n d : ℕ} (ops : NumOps) (X : Fin n → Fin d → ℚ)
    (perplexity : ℚ) : Fin n → Fin n → ℚ :=
  fun i j => max (symNormalized ops X perplexity i j) (1 / 10 ^ 12)

/-- Embedding of the per-block body of the root variant `calculate_P`
(parametric_tsne.py lines 99-103): same pipeline with floor `1e-8`. -/
def calculate_P_block {n d : ℕ} (ops : NumOps) (X : Fin n → Fin d → ℚ)
    (perplexity : ℚ) : Fin n → Fin n → ℚ :=
  fun i j => max (symNormalized ops X perplexity i j) (1 / 10 ^ 8)

/-- Configuration fields of the msp-variant estimator, in the order they
are assigned in `ParametricTSNE.__init__` (msp variant lines 106-128).
`batch_size = none` models the Python `None`; `early_stopping_epochs = none`
models the default `np.inf`.  The internal `_model` handle is kept outside
this record (it is not configuration). -/
structure Config where
  n_components : ℕ
  perplexity : ℚ
  n_iter : ℕ
  batch_size : Option ℕ
  verbose : ℕ
  nl1 : ℕ
  nl2 : ℕ
  nl3 : ℕ
  early_exaggeration_epochs : ℕ
  early_exaggeration_value : ℚ
  early_stopping_epochs : Option ℕ
  early_stopping_min_improvement : ℚ
  alpha : ℚ
  logdir : Option String

/-- Batch-size adjustment and sample truncation at the top of
`ParametricTSNE.fit` (msp variant lines 137-145): `batch_size = None` and
`batch_size > n` both overwrite the stored attribute with the sample count
`n`; otherwise the attribute is kept and the sample count is truncated to
the largest multiple of `batch_size` (`X = X[:-m]` when `m = n % batch_size
> 0`).  Returns the updated configuration together with the number of
samples actually used for training. -/
def fit_adjust (c : Config) (n : ℕ) : Config × ℕ :=
  match c.batch_size with
  | none =>
    (⟨c.n_components, c.perplexity, c.n_iter, some n, c.verbose, c.nl1, c.nl2,
      c.nl3, c.early_exaggeration_epochs, c.early_exaggeration_value,
      c.early_stopping_epochs, c.early_stopping_min_improvement, c.alpha,
      c.logdir⟩, n)
  | some b =>
    if n < b then
      (⟨c.n_components, c.perplexity, c.n_iter, some n, c.verbose, c.nl1,
        c.nl2, c.nl3, c.early_exaggeration_epochs, c.early_exaggeration_value,
        c.early_stopping_epochs, c.early_stopping_min_improvement, c.alpha,
        c.logdir⟩, n)
    else (c, n - n % b)

/-- The external Keras network collaborator: a feed-forward net maps each
input row independently, so its `predict` is modelled as a per-row
function. -/
structure Model where
  predict : List ℚ → List ℚ

/-- Observable state of the msp-variant estimator: its configuration and
the internal `_model` handle (`None` until the first `fit`). -/
structure ParametricTSNE where
  config : Config
  _model : Option Model

/-- The `model` property (msp variant lines 297-299). -/
def ParametricTSNE.model (e : ParametricTSNE) : Option Model :=
  e._model

/-- State-level embedding of `ParametricTSNE.fit(X)` (msp variant lines
133-150): adjust the batch size / truncate the sample count, then build a
fresh network (`_build_model`; the network that Keras returns is the
external collaborator `net`) and store it in `_model`.  The training loop
itself only updates the external network's parameters and is modelled
separately (`fit_es`, `fitPTrace`). -/
def ParametricTSNE.fit (net : Model) (e : ParametricTSNE)
    (X : List (List ℚ)) : ParametricTSNE :=
  ⟨(fit_adjust e.config X.length).1, some net⟩

/-- Number of samples `fit` actually trains on (after the truncation hack
of msp variant lines 141-145). -/
def ParametricTSNE.fitTrainCount (e : ParametricTSNE) (n : ℕ) : ℕ :=
  (fit_adjust e.config n).2

/-- Embedding of `ParametricTSNE.transform(X)` (msp variant lines 231-246):
raise `NotFittedError` when `self.model is None`, otherwise run the forward
pass `self.model.predict(X, batch_size=X.shape[0])` and return the
embedding matrix. -/
def ParametricTSNE.transform (e : ParametricTSNE) (X : List (List ℚ)) :
    Except String (List (List ℚ)) :=
  match e.model with
  | none => Except.error "NotFittedError"
  | some m => Except.ok (X.map m.predict)

/-- Embedding of `ParametricTSNE.fit_transform(X)` (msp variant lines
248-253): `self.fit(X, y)` followed by `self.transform(X)` — note that
`transform` receives the ORIGINAL `X`, not the copy truncated inside
`fit`. -/
def ParametricTSNE.fit_transform (net : Model) (e : ParametricTSNE)
    (X : List (List ℚ)) : Except String (List (List ℚ)) :=
  (e.fit net X).transform X

/-- Early-stopping bookkeeping of the training loop (msp variant lines
162-165 and 212-221; root variant lines 182-185 and 221-230):
`esLoss = none` models the initial `es_loss = np.inf`; `esPatience` is an
integer because the Python counter is decremented without a lower bound. -/
structure ESState where
  esLoss : Option ℚ
  esPatience : ℤ
  esStop : Bool

/-- The improvement test of the source, line for line:
`loss < es_loss and np.abs(loss - es_loss) > self.early_stopping_min_improvement`.
With `es_loss = np.inf` (i.e. `none`) both float comparisons are true. -/
def improvesCode (t : ℚ) (b : Option ℚ) (l : ℚ) : Bool :=
  match b with
  | none => true
  | some b0 => decide (l < b0) && decide (t < |l - b0|)

/-- One epoch of early-stopping bookkeeping (msp variant lines 213-221):
on improvement reset `es_loss` and the patience budget, otherwise
decrement the patience; then set `es_stop` when the patience hits zero. -/
def esStep (p : ℤ) (t : ℚ) (s : ESState) (l : ℚ) : ESState :=
  let s1 : ESState :=
    if improvesCode t s.esLoss l then ⟨some l, p, s.esStop⟩
    else ⟨s.esLoss, s.esPatience - 1, s.esStop⟩
  if s1.esPatience = 0 then ⟨s1.esLoss, s1.esPatience, true⟩ else s1

/-- The epoch loop `while epoch < self.n_iter and not es_stop` (msp variant
lines 171-225) restricted to its early-stopping effect.  The per-epoch
loss is the scalar produced by the external network's `train_on_batch`
averaging, supplied here as the synthetic sequence `losses`.  The fuel is
`n_iter - epoch`, so `epoch < n_iter` is exactly `fuel > 0`. -/
def fitESLoop (p : ℤ) (t : ℚ) (losses : ℕ → ℚ) :
    ℕ → ℕ → ESState → ℕ × ESState
  | 0, epoch, s => (epoch, s)
  | fuel + 1, epoch, s =>
    if s.esStop then (epoch, s)
    else fitESLoop p t losses fuel (epoch + 1) (esStep p t s (losses epoch))

/-- The whole early-stopping run of `fit`: start at epoch 0 with
`es_loss = np.inf`, `es_patience = p`, `es_stop = False`, and run for up to
`n_iter` epochs.  Returns the number of epochs executed and the final
early-stopping state. -/
def fit_es (p : ℤ) (t : ℚ) (losses : ℕ → ℚ) (n_iter : ℕ) : ℕ × ESState :=
  fitESLoop p t losses n_iter 0 ⟨none, p, false⟩

/-- Specification-side early-stopping state, modelled from the claim's
words: the running best loss and the count of consecutive epochs that
failed to improve it. -/
structure SpecESState where
  best : Option ℚ
  fails : ℕ

/-- Specification-side improvement test: the epoch loss is lower than the
running best by more than the threshold `t`. -/
def improvesSpec (t : ℚ) (b : Option ℚ) (l : ℚ) : Bool :=
  match b with
  | none => true
  | some b0 => decide (t < b0 - l)

/-- Specification-side epoch transition: an improving epoch resets the
best loss and the failure streak, any other epoch lengthens the streak. -/
def specStep (t : ℚ) (s : SpecESState) (l : ℚ) : SpecESState :=
  if improvesSpec t s.best l then ⟨some l, 0⟩ else ⟨s.best, s.fails + 1⟩

/-- Specification-side epoch loop: stop as soon as the failure streak
reaches the patience budget `p`, otherwise run up to `n_iter` epochs. -/
def specESLoop (p : ℕ) (t : ℚ) (losses : ℕ → ℚ) :
    ℕ → ℕ → SpecESState → ℕ × SpecESState
  | 0, epoch, s => (epoch, s)
  | fuel + 1, epoch, s =>
    if p ≤ s.fails then (epoch, s)
    else specESLoop p t losses fuel (epoch + 1) (specStep t s (losses epoch))

/-- Specification-side early-stopping run. -/
def spec_es (p : ℕ) (t : ℚ) (losses : ℕ → ℚ) (n_iter : ℕ) :
    ℕ × SpecESState :=
  specESLoop p t losses n_iter 0 ⟨none, 0⟩

/-- Per-epoch state of the precomputed similarity matrix in the msp-variant
training loop: `baseP` is the matrix `P` computed once before the loop
(msp variant line 168) and the epoch counter advances each iteration. -/
structure FitPState where
  baseP : ℕ → ℕ → ℚ
  epoch : ℕ

/-- The similarity matrix actually used for training in the current epoch
(msp variant lines 173-181): `_P = P.copy()`, then
`if epoch < self.early_exaggeration_epochs: _P *= self.early_exaggeration_value`.
The scaling mutates only the fresh copy `_P`, never `baseP`. -/
def epochUsedP (E : ℕ) (v : ℚ) (s : FitPState) : ℕ → ℕ → ℚ :=
  if s.epoch < E then fun i j => s.baseP i j * v else s.baseP

/-- End-of-epoch transition for the similarity-matrix state (msp variant
lines 224-225): `del _P; epoch += 1`.  The loop body never reassigns `P`,
so `baseP` is carried unchanged. -/
def epochAdvance (s : FitPState) : FitPState :=
  ⟨s.baseP, s.epoch + 1⟩

/-- State of the similarity matrix at the start of epoch `k`. -/
def fitPTrace (P0 : ℕ → ℕ → ℚ) : ℕ → FitPState
  | 0 => ⟨P0, 0⟩
  | k + 1 => epochAdvance (fitPTrace P0 k)

/-- IEEE-style float64 value domain: finite values are kept exact, and the
special values `inf`, `-inf` and `nan` are explicit.  This models the
arithmetic `Hbeta` actually runs under, where `np.exp` can underflow to
exactly `0.0` and `0.0 / 0.0` is `nan`. -/
inductive FVal where
  | fin : ℚ → FVal
  | inf : FVal
  | ninf : FVal
  | nan : FVal
deriving DecidableEq

/-- IEEE addition on `FVal`: `nan` absorbs, `inf + -inf = nan`. -/
def FVal.add : FVal → FVal → FVal
  | nan, _ => nan
  | _, nan => nan
  | inf, ninf => nan
  | ninf, inf => nan
  | inf, _ => inf
  | _, inf => inf
  | ninf, _ => ninf
  | _, ninf => ninf
  | fin a, fin b => fin (a + b)

/-- IEEE negation on `FVal`. -/
def FVal.neg : FVal → FVal
  | nan => nan
  | inf => ninf
  | ninf => inf
  | fin a => fin (-a)

/-- IEEE subtraction on `FVal`. -/
def FVal.sub (a b : FVal) : FVal :=
  FVal.add a (FVal.neg b)

/-- IEEE multiplication on `FVal`: `nan` absorbs, `0 * ±inf = nan`. -/
def FVal.mul : FVal → FVal → FVal
  | nan, _ => nan
  | _, nan => nan
  | inf, inf => inf
  | inf, ninf => ninf
  | ninf, inf => ninf
  | ninf, ninf => inf
  | inf, fin b => if b = 0 then nan else if 0 < b then inf else ninf
  | fin a, inf => if a = 0 then nan else if 0 < a then inf else ninf
  | ninf, fin b => if b = 0 then nan else if 0 < b then ninf else inf
  | fin a, ninf => if a = 0 then nan else if 0 < a then ninf else inf
  | fin a, fin b => fin (a * b)

/-- IEEE division on `FVal`: `0 / 0 = nan`, `x / 0 = ±inf` for `x ≠ 0`,
`inf / inf = nan`, finite `/ ±inf = 0`. -/
def FVal.div : FVal → FVal → FVal
  | nan, _ => nan
  | _, nan => nan
  | inf, inf => nan
  | inf, ninf => nan
  | ninf, inf => nan
  | ninf, ninf => nan
  | fin _, inf => fin 0
  | fin _, ninf => fin 0
  | inf, fin b => if b < 0 then ninf else inf
  | ninf, fin b => if b < 0 then inf else ninf
  | fin a, fin b =>
    if b = 0 then (if a = 0 then nan else if 0 < a then inf else ninf)
    else fin (a / b)

/-- IEEE absolute value on `FVal`. -/
def FVal.abs : FVal → FVal
  | nan => nan
  | inf => inf
  | ninf => inf
  | fin a => fin |a|

/-- IEEE strict comparison on `FVal`: every comparison with `nan` is
false (this is what makes a NaN `Hdiff` exit the Python loop). -/
def FVal.lt : FVal → FVal → Bool
  | nan, _ => false
  | _, nan => false
  | ninf, ninf => false
  | ninf, _ => true
  | _, ninf => false
  | inf, _ => false
  | fin _, inf => true
  | fin a, fin b => decide (a < b)

/-- The `np.isnan` test on `FVal`. -/
def FVal.isnan : FVal → Bool
  | nan => true
  | _ => false

/-- Float64 primitives for the `FVal` model: `expA`/`logA` give the exact
rational approximations returned by `np.exp`/`np.log` in the normal range;
the special cases are hard-wired in `FVal.exp`/`FVal.log`. -/
structure FOps where
  expA : ℚ → ℚ
  logA : ℚ → ℚ

/-- Float64 `np.exp`: underflows to exactly `0.0` for arguments at or below
`-746` (the true float64 underflow threshold is about `-745.2`) and
overflows to `inf` at or above `710` (true threshold about `709.8`). -/
def FVal.exp (a : ℚ → ℚ) : FVal → FVal
  | nan => nan
  | inf => inf
  | ninf => fin 0
  | fin q => if q ≤ -746 then fin 0 else if 710 ≤ q then inf else fin (a q)

/-- Float64 `np.log`: `log 0 = -inf`, `log` of a negative value is `nan`. -/
def FVal.log (a : ℚ → ℚ) : FVal → FVal
  | nan => nan
  | inf => inf
  | ninf => nan
  | fin q => if q = 0 then ninf else if q < 0 then nan else fin (a q)

/-- Embedding of `Hbeta(D, beta)` (root variant lines 25-30) over the
`FVal` float model, for a finite distance row and finite `beta`:
`P = np.exp(-D * beta)`, `sumP = np.sum(P)`,
`H = np.log(sumP) + beta * np.sum(D * P) / sumP`, `P = P / sumP`.
There is no epsilon guard on either division, exactly as in the source. -/
def HbetaF (f : FOps) (D : List ℚ) (beta : ℚ) : FVal × List FVal :=
  let P := D.map (fun d => FVal.exp f.expA (FVal.fin (-d * beta)))
  let sumP := P.foldl FVal.add (FVal.fin 0)
  let H := FVal.add (FVal.log f.logA sumP)
    (FVal.div (FVal.mul (FVal.fin beta)
      ((List.zipWith FVal.mul (D.map FVal.fin) P).foldl FVal.add
        (FVal.fin 0))) sumP)
  (H, P.map (fun p => FVal.div p sumP))

/-- State of the root-variant `x2p_job` search (parametric_tsne.py lines
32-68) in the float model.  `beta` and the bracket stay exact (they are
products/averages of finite values); `H` and the probability row live in
the float domain. -/
structure FState where
  beta : ℚ
  betaMin : Option ℚ
  betaMax : Option ℚ
  H : FVal
  thisP : List FVal
  tries : ℕ

/-- The root-variant `x2p_job` while-loop (lines 43-66) over the float
model, including the NaN revert: after recomputing `H, thisP`, if
`np.isnan(thisP).any()` the previous row is restored and the loop breaks
(`tries` is not incremented, mirroring the `break` before `tries += 1`).
The loop guard `np.abs(Hdiff) > tol` is false when `Hdiff` is `nan`, so a
NaN produced by the very first `Hbeta` call never enters the loop. -/
def x2pJobFLoop (f : FOps) (D : List ℚ) (logU tol : ℚ) (maxIter : ℕ) :
    ℕ → FState → FState
  | 0, s => s
  | fuel + 1, s =>
    if decide (s.tries < maxIter) &&
        FVal.lt (FVal.fin tol) (FVal.abs (FVal.sub s.H (FVal.fin logU))) then
      let bracket :=
        if FVal.lt (FVal.fin 0) (FVal.sub s.H (FVal.fin logU)) then
          match s.betaMax with
          | none => (s.beta * 2, some s.beta, s.betaMax)
          | some bM => ((s.beta + bM) / 2, some s.beta, s.betaMax)
        else
          match s.betaMin with
          | none => (s.beta / 2, s.betaMin, some s.beta)
          | some bm => ((s.beta + bm) / 2, s.betaMin, some s.beta)
      let hp := HbetaF f D bracket.1
      if hp.2.any FVal.isnan then
        ⟨bracket.1, bracket.2.1, bracket.2.2, hp.1, s.thisP, s.tries⟩
      else
        x2pJobFLoop f D logU tol maxIter fuel
          ⟨bracket.1, bracket.2.1, bracket.2.2, hp.1, hp.2, s.tries + 1⟩
    else s

/-- Embedding of the root-variant `x2p_job((i, Di, logU))` (lines 32-68)
over the float model, with the source defaults `max_iteration=50`,
`tol=1e-5` passed explicitly by callers. -/
def x2p_jobF (f : FOps) (i : ℕ) (Di : List ℚ) (logU : ℚ)
    (maxIter : ℕ) (tol : ℚ) : ℕ × List FVal :=
  let hp := HbetaF f Di 1
  (i, (x2pJobFLoop f Di logU tol maxIter maxIter
    ⟨1, none, none, hp.1, hp.2, 0⟩).thisP)

/-- Concrete float primitives for counterexamples: the values of `expA` and
`logA` are irrelevant on the evaluated paths (only the hard-wired
underflow and `log 0` branches fire). -/
def cexFOps : FOps :=
  ⟨fun _ => 1, fun _ => 0⟩

/-- Concrete rational primitives for counterexamples and witnesses. -/
def constOps : NumOps :=
  ⟨fun _ => 1, fun _ => 0⟩

/-- Concrete 2-point, 1-feature data block (two coincident points). -/
def cexX : Fin 2 → Fin 1 → ℚ :=
  fun _ _ => 0

/-- A distance row whose entries are large enough that every exponential
underflows to `0.0` in float64 (`exp(-800) = 0.0`). -/
def underflowRow : List ℚ :=
  [800, 800]

/-- A benign distance row: no underflow, the first `Hbeta` row is finite. -/
def benignRow : List ℚ :=
  [1, 1]

/-- The msp estimator of the C3 truncation scenario: constructor defaults
except `batch_size=100` (msp variant lines 93-131), not yet fitted. -/
def est503 : ParametricTSNE :=
  ⟨⟨2, 30, 1000, some 100, 0, 1000, 500, 250, 50, 4, none, 1 / 100, 1, none⟩,
    none⟩

/-- A concrete external network mapping every input row to a 2-dimensional
output row (`n_components = 2`). -/
def net0 : Model :=
  ⟨fun _ => [0, 0]⟩

/-- The 503-sample, 1-feature input of the C3 truncation scenario. -/
def X503 : List (List ℚ) :=
  List.replicate 503 [0]

/-! ## Helper lemmas -/

/-- The diagonal of the floored block similarity matrix is always exactly
the floor value: the pre-floor diagonal is `0` and `np.maximum` raises it
to `1e-12`. -/
theorem mspCalculateP_diag {n d : ℕ} (ops : NumOps) (X : Fin n → Fin d → ℚ)
    (perplexity : ℚ) (i : Fin n) :
    mspCalculateP_block ops X perplexity i i = 1 / 10 ^ 12 := by
  have hx : x2p ops X perplexity i i = 0 := by simp [x2p]
  have hs : symNormalized ops X perplexity i i = 0 := by
    simp [symNormalized, symP, hx]
  rw [mspCalculateP_block, hs]
  exact max_eq_right (by norm_num)

/-! ## Claim theorems -/

/-- Claim C8: for every data block `X`, the pairwise squared-distance
matrix computed in `x2p` via the identity
`D_ij = ‖x_i‖² + ‖x_j‖² − 2 x_i·x_j` equals, over exact arithmetic, the
matrix of squared Euclidean distances `‖x_i − x_j‖²` for all pairs. -/
theorem c8_distance_identity {n d : ℕ} (X : Fin n → Fin d → ℚ)
    (i j : Fin n) : distMatrix X i j = sqEuclidean X i j := by
  unfold distMatrix sqEuclidean sum_X
  have h : ∀ k : Fin d,
      (X i k - X j k) ^ 2 = (X i k) ^ 2 + (X j k) ^ 2 - 2 * (X i k * X j k) :=
    fun k => by ring
  rw [Finset.sum_congr rfl (fun k _ => h k), Finset.sum_sub_distrib,
    Finset.sum_add_distrib, ← Finset.mul_sum]
  ring

/-- Claim C7: calling `transform` before any successful `fit` surfaces the
`NotFittedError` to the caller, while after a `fit` (which stores the
freshly built network) `transform` runs the forward pass and returns the
embedding matrix. -/
theorem c7_transform_not_fitted (cfg : Config) (net : Model)
    (e : ParametricTSNE) (X Y : List (List ℚ)) :
    ParametricTSNE.transform ⟨cfg, none⟩ X = Except.error "NotFittedError" ∧
    (e.fit net Y).transform X = Except.ok (X.map net.predict) :=
  ⟨rfl, rfl⟩

/-- Claim C9: in the msp variant, `fit` permanently overwrites the
estimator's `batch_size` attribute with `min(batch_size, n)` (where a
`None` attribute counts as `n`), so subsequent reads observe the adjusted
value, and no other configuration field is changed by `fit`. -/
theorem c9_fit_batch_size_mutation (net : Model) (e : ParametricTSNE)
    (X : List (List ℚ)) :
    ((e.fit net X).config).batch_size =
      some (min (e.config.batch_size.getD X.length) X.length) ∧
    ((e.fit net X).config).n_components = e.config.n_components ∧
    ((e.fit net X).config).perplexity = e.config.perplexity ∧
    ((e.fit net X).config).n_iter = e.config.n_iter ∧
    ((e.fit net X).config).verbose = e.config.verbose ∧
    ((e.fit net X).config).nl1 = e.config.nl1 ∧
    ((e.fit net X).config).nl2 = e.config.nl2 ∧
    ((e.fit net X).config).nl3 = e.config.nl3 ∧
    ((e.fit net X).config).early_exaggeration_epochs =
      e.config.early_exaggeration_epochs ∧
    ((e.fit net X).config).early_exaggeration_value =
      e.config.early_exaggeration_value ∧
    ((e.fit net X).config).early_stopping_epochs =
      e.config.early_stopping_epochs ∧
    ((e.fit net X).config).early_stopping_min_improvement =
      e.config.early_stopping_min_improvement ∧
    ((e.fit net X).config).alpha = e.config.alpha ∧
    ((e.fit net X).config).logdir = e.config.logdir := by
  rcases e with ⟨c, m⟩
  rcases c with ⟨a1, a2, a3, bs, a5, a6, a7, a8, a9, a10, a11, a12, a13, a14⟩
  cases bs with
  | none =>
    refine ⟨?_, rfl, rfl, rfl, rfl, rfl, rfl, rfl, rfl, rfl, rfl, rfl, rfl, rfl⟩
    simp [ParametricTSNE.fit, fit_adjust]
  | some b =>
    by_cases hb : X.length < b
    · refine ⟨?_, ?_, ?_, ?_, ?_, ?_, ?_, ?_, ?_, ?_, ?_, ?_, ?_, ?_⟩ <;>
        simp [ParametricTSNE.fit, fit_adjust, hb, Nat.min_eq_right (Nat.le_of_lt hb)]
    · refine ⟨?_, ?_, ?_, ?_, ?_, ?_, ?_, ?_, ?_, ?_, ?_, ?_, ?_, ?_⟩ <;>
        simp [ParametricTSNE.fit, fit_adjust, hb,
          Nat.min_eq_left (Nat.le_of_not_lt hb)]

/-- Claim C3 counterexample: on 503 samples with `batch_size=100`, the
embedding returned by `fit_transform` has 503 rows, not the 500 rows the
claim asserts — `fit` truncates only its local copy of `X`, while
`fit_transform` passes the original 503-sample `X` to `transform`. -/
theorem c3_counterexample :
    (ParametricTSNE.fit_transform net0 est503 X503).map List.length =
      Except.ok 503 ∧ (503 : ℕ) ≠ 500 := by
  constructor
  · show Except.ok ((X503.map net0.predict).length) = Except.ok 503
    rw [List.length_map]
    rfl
  · decide

/-- Claim C3 (amended): with 503 samples and `batch_size=100`, `fit`
truncates the training set to 500 samples (the last 3 are dropped for
training), but `fit_transform` returns the embedding of all 503 input
samples, each row of dimension `n_components = 2` — shape (503, 2), not
(500, 2). -/
theorem c3_truncation_scenario :
    est503.fitTrainCount X503.length = 500 ∧
    (ParametricTSNE.fit_transform net0 est503 X503).map
      (fun Y => Y.map List.length) =
      Except.ok (List.replicate 503 2) := by
  constructor
  · decide
  · show Except.ok ((X503.map net0.predict).map List.length) =
      Except.ok (List.replicate 503 2)
    rw [List.map_map]
    rfl

/-- The iteration counter never exceeds the budget: the loop guard
requires `tries < max_iteration` before every step. -/
theorem x2pLoop_tries_le (ops : NumOps) (D : List ℚ) (logU tol : ℚ)
    (maxIter : ℕ) :
    ∀ fuel (s : X2pState), s.tries ≤ maxIter →
      (x2pLoop ops D logU tol maxIter fuel s).tries ≤ maxIter := by
  intro fuel
  induction fuel with
  | zero => intro s hs; exact hs
  | succ fuel ih =>
    intro s hs
    rw [x2pLoop]
    by_cases hc : x2pCond logU tol maxIter s = true
    · rw [if_pos hc]
      refine ih _ ?_
      have ht : s.tries < maxIter := by
        have := (Bool.and_eq_true _ _).mp hc
        exact of_decide_eq_true this.1
      show s.tries + 1 ≤ maxIter
      omega
    · rw [if_neg hc]; exact hs

/-- On exit, either the loop guard is false (the tolerance was reached or
the budget is spent) or the fuel was consumed, in which case exactly
`fuel` iterations ran. -/
theorem x2pLoop_exit (ops : NumOps) (D : List ℚ) (logU tol : ℚ)
    (maxIter : ℕ) :
    ∀ fuel (s : X2pState),
      x2pCond logU tol maxIter (x2pLoop ops D logU tol maxIter fuel s) = false ∨
      (x2pLoop ops D logU tol maxIter fuel s).tries = s.tries + fuel := by
  intro fuel
  induction fuel with
  | zero => intro s; right; rfl
  | succ fuel ih =>
    intro s
    rw [x2pLoop]
    by_cases hc : x2pCond logU tol maxIter s = true
    · rw [if_pos hc]
      rcases ih (x2pStep ops D logU s) with h | h
      · left; exact h
      · right
        rw [h]
        show s.tries + 1 + fuel = s.tries + (fuel + 1)
        omega
    · rw [if_neg hc]
      left
      exact Bool.not_eq_true _ ▸ hc

/-- Claim C4: for every distance row and target perplexity, the
perplexity-calibration binary search of `x2p_job` terminates after at most
`max_iter` steps (default 50); if it stopped before spending the budget
the tolerance was met, and on budget exhaustion it silently returns the
best-effort probability row of the final state — the embedding is a total
function and no exception path exists. -/
theorem c4_bounded_search (ops : NumOps) (i : ℕ) (Di : List ℚ)
    (logU tol : ℚ) (maxIter : ℕ) :
    (x2pLoop ops Di logU tol maxIter maxIter (x2pInit ops Di)).tries ≤
      maxIter ∧
    ((x2pLoop ops Di logU tol maxIter maxIter (x2pInit ops Di)).tries <
        maxIter →
      |(x2pLoop ops Di logU tol maxIter maxIter (x2pInit ops Di)).H - logU| ≤
        tol) ∧
    (x2p_job ops i Di logU maxIter tol).2 =
      (x2pLoop ops Di logU tol maxIter maxIter (x2pInit ops Di)).thisP := by
  refine ⟨x2pLoop_tries_le ops Di logU tol maxIter maxIter _ (Nat.zero_le _),
    ?_, rfl⟩
  intro hlt
  rcases x2pLoop_exit ops Di logU tol maxIter maxIter (x2pInit ops Di) with
    h | h
  · rw [x2pCond, Bool.and_eq_false_iff] at h
    rcases h with h | h
    · exact absurd hlt (by simpa using h)
    · have := of_decide_eq_false h
      linarith [not_lt.mp this]
  · rw [h] at hlt
    omega

/-- Each step of the binary search preserves strict positivity of `beta`
and of both finite bracket endpoints: doubling and halving preserve
positivity, and bisection averages two previously positive values. -/
theorem x2pStep_beta_pos (ops : NumOps) (D : List ℚ) (logU : ℚ)
    (s : X2pState) (hb : 0 < s.beta)
    (hmin : ∀ b ∈ s.betaMin, 0 < b) (hmax : ∀ b ∈ s.betaMax, 0 < b) :
    0 < (x2pStep ops D logU s).beta ∧
    (∀ b ∈ (x2pStep ops D logU s).betaMin, 0 < b) ∧
    (∀ b ∈ (x2pStep ops D logU s).betaMax, 0 < b) := by
  rw [x2pStep]
  by_cases hd : 0 < s.H - logU
  · rw [if_pos hd]
    cases hM : s.betaMax with
    | none =>
      refine ⟨by positivity, ?_, ?_⟩
      · intro b hbmem
        simp only [Option.mem_def, Option.some.injEq] at hbmem
        exact hbmem ▸ hb
      · intro b hbmem
        rw [hM] at hmax
        exact hmax b hbmem
    | some bM =>
      have hbM : 0 < bM := hmax bM (by rw [hM]; rfl)
      refine ⟨by positivity, ?_, ?_⟩
      · intro b hbmem
        simp only [Option.mem_def, Option.some.injEq] at hbmem
        exact hbmem ▸ hb
      · intro b hbmem
        rw [hM] at hmax
        exact hmax b hbmem
  · rw [if_neg hd]
    cases hm : s.betaMin with
    | none =>
      refine ⟨by positivity, ?_, ?_⟩
      · intro b hbmem
        rw [hm] at hmin
        exact hmin b hbmem
      · intro b hbmem
        simp only [Option.mem_def, Option.some.injEq] at hbmem
        exact hbmem ▸ hb
    | some bm =>
      have hbm : 0 < bm := hmin bm (by rw [hm]; rfl)
      refine ⟨by positivity, ?_, ?_⟩
      · intro b hbmem
        rw [hm] at hmin
        exact hmin b hbmem
      · intro b hbmem
        simp only [Option.mem_def, Option.some.injEq] at hbmem
        exact hbmem ▸ hb

/-- Positivity of `beta` and the bracket is preserved by any number of
loop iterations. -/
theorem x2pLoop_beta_pos (ops : NumOps) (D : List ℚ) (logU tol : ℚ)
    (maxIter : ℕ) :
    ∀ fuel (s : X2pState), 0 < s.beta → (∀ b ∈ s.betaMin, 0 < b) →
      (∀ b ∈ s.betaMax, 0 < b) →
      0 < (x2pLoop ops D logU tol maxIter fuel s).beta ∧
      (∀ b ∈ (x2pLoop ops D logU tol maxIter fuel s).betaMin, 0 < b) ∧
      (∀ b ∈ (x2pLoop ops D logU tol maxIter fuel s).betaMax, 0 < b) := by
  intro fuel
  induction fuel with
  | zero => intro s hb hmin hmax; exact ⟨hb, hmin, hmax⟩
  | succ fuel ih =>
    intro s hb hmin hmax
    rw [x2pLoop]
    by_cases hc : x2pCond logU tol maxIter s = true
    · rw [if_pos hc]
      obtain ⟨h1, h2, h3⟩ := x2pStep_beta_pos ops D logU s hb hmin hmax
      exact ih _ h1 h2 h3
    · rw [if_neg hc]; exact ⟨hb, hmin, hmax⟩

/-- Claim C10: throughout every run of the calibration binary search,
`beta` stays strictly positive at every iteration (`x2pLoop … k` is the
search state after `k` iterations): the initial `beta = 1`, doubling,
halving, and bisection against bracket endpoints that are previous
(positive) `beta` values all preserve `beta > 0`. -/
theorem c10_beta_positive (ops : NumOps) (Di : List ℚ) (logU tol : ℚ)
    (maxIter k : ℕ) :
    0 < (x2pLoop ops Di logU tol maxIter k (x2pInit ops Di)).beta ∧
    (∀ b ∈ (x2pLoop ops Di logU tol maxIter k (x2pInit ops Di)).betaMin,
      0 < b) ∧
    (∀ b ∈ (x2pLoop ops Di logU tol maxIter k (x2pInit ops Di)).betaMax,
      0 < b) := by
  refine x2pLoop_beta_pos ops Di logU tol maxIter k (x2pInit ops Di)
    one_pos ?_ ?_ <;> intro b hbmem <;> cases hbmem

/-- Claim C2 counterexample: on a concrete 2-point block the diagonal of
the block similarity matrix is `1e-12`, not `0` — the final
`np.maximum(P_batch, 1e-12)` floor lifts every zero diagonal entry to the
floor value. -/
theorem c2_counterexample :
    mspCalculateP_block constOps cexX 30 0 0 = 1 / 10 ^ 12 ∧
    (1 / 10 ^ 12 : ℚ) ≠ 0 :=
  ⟨mspCalculateP_diag constOps cexX 30 0, by norm_num⟩

/-- Claim C2 (amended): the block similarity matrix is symmetric, and
(provided the symmetrized matrix has nonzero total mass) its entries sum
to 1 before the final floor step; but every diagonal entry equals the
floor `1e-12` (`1e-8` in the root variant), not `0`. -/
theorem c2_block_matrix_properties {n d : ℕ} (ops : NumOps)
    (X : Fin n → Fin d → ℚ) (perplexity : ℚ)
    (h : symTotal ops X perplexity ≠ 0) :
    (∀ i j, mspCalculateP_block ops X perplexity i j =
      mspCalculateP_block ops X perplexity j i) ∧
    (∀ i, mspCalculateP_block ops X perplexity i i = 1 / 10 ^ 12) ∧
    (∑ i, ∑ j, symNormalized ops X perplexity i j = 1) := by
  refine ⟨?_, fun i => mspCalculateP_diag ops X perplexity i, ?_⟩
  · intro i j
    rw [mspCalculateP_block, mspCalculateP_block, symNormalized,
      symNormalized, symP, symP, add_comm]
  · rw [show (∑ i, ∑ j, symNormalized ops X perplexity i j) =
      (∑ i, ∑ j, symP ops X perplexity i j) / symTotal ops X perplexity by
        rw [Finset.sum_div]
        exact Finset.sum_congr rfl fun i _ => by rw [Finset.sum_div]; rfl]
    rw [← symTotal]
    exact div_self h

/-- Claim C2 witness: the amended theorem instantiated on the concrete
2-point block, whose symmetrized total mass is nonzero. -/
theorem c2_block_matrix_properties_witness :
    symTotal constOps cexX 30 ≠ 0 ∧
    ((∀ i j, mspCalculateP_block constOps cexX 30 i j =
      mspCalculateP_block constOps cexX 30 j i) ∧
    (∀ i, mspCalculateP_block constOps cexX 30 i i = 1 / 10 ^ 12) ∧
    (∑ i, ∑ j, symNormalized constOps cexX 30 i j = 1)) :=
  ⟨by with_unfolding_all decide,
    c2_block_matrix_properties constOps cexX 30 (by with_unfolding_all decide)⟩

/-- The base similarity matrix precomputed before the epoch loop is never
reassigned by the loop body: the state of epoch `k` carries `P0`
unchanged. -/
theorem fitPTrace_base (P0 : ℕ → ℕ → ℚ) :
    ∀ k, (fitPTrace P0 k).baseP = P0 ∧ (fitPTrace P0 k).epoch = k := by
  intro k
  induction k with
  | zero => exact ⟨rfl, rfl⟩
  | succ k ih =>
    rw [fitPTrace, epochAdvance]
    exact ⟨ih.1, by rw [ih.2]⟩

/-- Claim C6: the similarity matrix used for training in epoch `k` equals
the base matrix scaled once by `early_exaggeration_value` when
`k < early_exaggeration_epochs` and the unscaled base matrix afterwards;
the scaling is applied to a fresh copy each epoch and never accumulates,
so for `2 ≤ k` the epoch-`k` matrix differs from `base * value^k`. -/
theorem c6_early_exaggeration (P0 : ℕ → ℕ → ℚ) (E : ℕ) (v : ℚ)
    (k i0 j0 : ℕ) (hk2 : 2 ≤ k) (hkE : k < E) (hv : 1 < v)
    (hP : P0 i0 j0 ≠ 0) :
    (∀ m, epochUsedP E v (fitPTrace P0 m) =
      if m < E then (fun i j => P0 i j * v) else P0) ∧
    epochUsedP E v (fitPTrace P0 k) ≠ fun i j => P0 i j * v ^ k := by
  have hbase : ∀ m, epochUsedP E v (fitPTrace P0 m) =
      if m < E then (fun i j => P0 i j * v) else P0 := by
    intro m
    rw [epochUsedP, (fitPTrace_base P0 m).1, (fitPTrace_base P0 m).2]
  refine ⟨hbase, ?_⟩
  intro hcontra
  rw [hbase k, if_pos hkE] at hcontra
  have hij : P0 i0 j0 * v = P0 i0 j0 * v ^ k := congrFun (congrFun hcontra i0) j0
  have hvk : v = v ^ k := mul_left_cancel₀ hP hij
  have : v < v ^ k := by
    calc v = v ^ 1 := (pow_one v).symm
    _ < v ^ k := by
      apply pow_lt_pow_right₀ hv
      omega
  linarith [this, hvk.ge]

/-- Claim C6 witness: the theorem instantiated on a concrete 1-entry base
matrix with `early_exaggeration_epochs = 5`, value `2`, epoch `3`. -/
theorem c6_early_exaggeration_witness :
    2 ≤ 3 ∧ 3 < 5 ∧ (1 : ℚ) < 2 ∧ (fun _ _ => (1 : ℚ)) 0 0 ≠ 0 ∧
    ((∀ m, epochUsedP 5 2 (fitPTrace (fun _ _ => (1 : ℚ)) m) =
      if m < 5 then (fun i j => (fun _ _ => (1 : ℚ)) i j * 2)
      else (fun _ _ => (1 : ℚ))) ∧
    epochUsedP 5 2 (fitPTrace (fun _ _ => (1 : ℚ)) 3) ≠
      fun i j => (fun _ _ => (1 : ℚ)) i j * 2 ^ 3) :=
  ⟨by norm_num, by norm_num, by norm_num, by norm_num,
    c6_early_exaggeration (fun _ _ => (1 : ℚ)) 5 2 3 0 0 (by norm_num)
      (by norm_num) (by norm_num) (by norm_num)⟩

/-- For a non-negative threshold, the source's improvement test
`loss < es_loss and np.abs(loss - es_loss) > min_improvement` coincides
with the specification's "lower than the running best by more than the
threshold". -/
theorem improves_eq (t : ℚ) (ht : 0 ≤ t) (b : Option ℚ) (l : ℚ) :
    improvesCode t b l = improvesSpec t b l := by
  cases b with
  | none => rfl
  | some b0 =>
    show (decide (l < b0) && decide (t < |l - b0|)) = decide (t < b0 - l)
    have habs : l < b0 → |l - b0| = b0 - l := fun hl => by
      rw [abs_of_neg (by linarith : l - b0 < 0)]; ring
    by_cases h : t < b0 - l
    · have hl : l < b0 := by linarith
      rw [habs hl]
      simp [hl, h]
    · by_cases hl : l < b0
      · rw [habs hl]
        simp [hl, h]
      · rw [decide_eq_false hl, Bool.false_and]
        exact (decide_eq_false h).symm

/-- Outcome of an improving epoch: `es_loss` and the patience budget are
reset; the stop check cannot fire because the budget is nonzero. -/
theorem esStep_improves (p : ℤ) (t : ℚ) (s : ESState) (l : ℚ)
    (h : improvesCode t s.esLoss l = true) (hp : p ≠ 0)
    (hs : s.esStop = false) : esStep p t s l = ⟨some l, p, false⟩ := by
  simp [esStep, h, hp, hs]

/-- Outcome of a non-improving epoch that exhausts the patience: the
patience reaches zero and the stop flag is set. -/
theorem esStep_fail_fire (p : ℤ) (t : ℚ) (s : ESState) (l : ℚ)
    (h : improvesCode t s.esLoss l = false) (hz : s.esPatience - 1 = 0) :
    esStep p t s l = ⟨s.esLoss, 0, true⟩ := by
  simp [esStep, h, hz]

/-- Outcome of a non-improving epoch with patience remaining: the patience
is decremented and the stop flag stays down. -/
theorem esStep_fail_cont (p : ℤ) (t : ℚ) (s : ESState) (l : ℚ)
    (h : improvesCode t s.esLoss l = false)
    (hnz : ¬ (s.esPatience - 1 = 0)) (hs : s.esStop = false) :
    esStep p t s l = ⟨s.esLoss, s.esPatience - 1, false⟩ := by
  simp [esStep, h, hnz, hs]

/-- Lockstep bisimulation between the source early-stopping loop and the
specification automaton that counts consecutive non-improving epochs:
the code's patience counter always equals `p` minus the current failure
streak, and the stop flag is set exactly when the streak reaches `p`. -/
theorem es_bisim (p : ℕ) (hp : 1 ≤ p) (t : ℚ) (ht : 0 ≤ t)
    (losses : ℕ → ℚ) :
    ∀ fuel epoch (s : ESState) (σ : SpecESState),
      s.esLoss = σ.best → s.esPatience = (p : ℤ) - (σ.fails : ℤ) →
      σ.fails ≤ p → (s.esStop = true ↔ σ.fails = p) →
      (fitESLoop (p : ℤ) t losses fuel epoch s).1 =
        (specESLoop p t losses fuel epoch σ).1 ∧
      ((fitESLoop (p : ℤ) t losses fuel epoch s).2.esStop = true ↔
        (specESLoop p t losses fuel epoch σ).2.fails = p) ∧
      (specESLoop p t losses fuel epoch σ).2.fails ≤ p := by
  intro fuel
  induction fuel with
  | zero =>
    intro epoch s σ hb hpat hle hstop
    exact ⟨rfl, hstop, hle⟩
  | succ fuel ih =>
    intro epoch s σ hb hpat hle hstop
    rw [fitESLoop, specESLoop]
    by_cases hhalt : s.esStop = true
    · have hf : σ.fails = p := hstop.mp hhalt
      rw [if_pos hhalt, if_pos (by omega : p ≤ σ.fails)]
      exact ⟨rfl, hstop, hle⟩
    · have hf : σ.fails ≠ p := fun hc => hhalt (hstop.mpr hc)
      have hflt : σ.fails < p := lt_of_le_of_ne hle hf
      have hsf : s.esStop = false := Bool.not_eq_true _ ▸ hhalt
      rw [if_neg hhalt, if_neg (by omega : ¬ p ≤ σ.fails)]
      set l := losses epoch with hl
      have himp : improvesCode t s.esLoss l = improvesSpec t σ.best l := by
        rw [hb]; exact improves_eq t ht σ.best l
      by_cases hi : improvesSpec t σ.best l = true
      · have hσ' : specStep t σ l = ⟨some l, 0⟩ := by
          rw [specStep, if_pos hi]
        rw [esStep_improves (p : ℤ) t s l (himp.trans hi) (by omega) hsf, hσ']
        refine ih (epoch + 1) ⟨some l, (p : ℤ), false⟩ ⟨some l, 0⟩ rfl ?_
          (Nat.zero_le p) ?_
        · show (p : ℤ) = (p : ℤ) - ((0 : ℕ) : ℤ)
          omega
        · show false = true ↔ (0 : ℕ) = p
          constructor
          · intro hc
            exact absurd hc (by simp)
          · intro hc
            exact absurd hc.symm (by omega : p ≠ 0)
      · have hi' : improvesSpec t σ.best l = false := by
          cases hx : improvesSpec t σ.best l with
          | false => rfl
          | true => exact absurd hx hi
        have hσ' : specStep t σ l = ⟨σ.best, σ.fails + 1⟩ := by
          simp [specStep, hi']
        by_cases hfire : σ.fails + 1 = p
        · have hz : s.esPatience - 1 = 0 := by omega
          rw [esStep_fail_fire (p : ℤ) t s l (himp.trans hi') hz, hσ']
          refine ih (epoch + 1) ⟨s.esLoss, 0, true⟩ ⟨σ.best, σ.fails + 1⟩ hb
            ?_ (by show σ.fails + 1 ≤ p; omega) ?_
          · show (0 : ℤ) = (p : ℤ) - ((σ.fails + 1 : ℕ) : ℤ)
            omega
          · show true = true ↔ σ.fails + 1 = p
            exact ⟨fun _ => hfire, fun _ => rfl⟩
        · have hnz : ¬ (s.esPatience - 1 = 0) := by omega
          rw [esStep_fail_cont (p : ℤ) t s l (himp.trans hi') hnz hsf, hσ']
          refine ih (epoch + 1) ⟨s.esLoss, s.esPatience - 1, false⟩
            ⟨σ.best, σ.fails + 1⟩ hb ?_ (by show σ.fails + 1 ≤ p; omega) ?_
          · show s.esPatience - 1 = (p : ℤ) - ((σ.fails + 1 : ℕ) : ℤ)
            omega
          · show false = true ↔ σ.fails + 1 = p
            constructor
            · intro hc
              exact absurd hc (by simp)
            · intro hc
              exact absurd hc hfire

/-- Claim C5: early stopping fires exactly when `patience` consecutive
epochs fail to improve the running best loss by more than
`early_stopping_min_improvement`: the source loop (`fit_es`) executes the
same number of epochs as the specification automaton (`spec_es`) that
resets a failure streak on improvement and stops when the streak reaches
the patience budget, and its stop flag is set iff that streak reached the
budget — a normal terminal transition, possibly before `n_iter` epochs. -/
theorem c5_early_stopping (p : ℕ) (t : ℚ) (losses : ℕ → ℚ) (n_iter : ℕ)
    (hp : 1 ≤ p) (ht : 0 ≤ t) :
    (fit_es (p : ℤ) t losses n_iter).1 = (spec_es p t losses n_iter).1 ∧
    ((fit_es (p : ℤ) t losses n_iter).2.esStop = true ↔
      (spec_es p t losses n_iter).2.fails = p) := by
  have h := es_bisim p hp t ht losses n_iter 0 ⟨none, (p : ℤ), false⟩ ⟨none, 0⟩
    rfl (by show (p : ℤ) = (p : ℤ) - ((0 : ℕ) : ℤ); omega) (Nat.zero_le p)
    (by show false = true ↔ (0 : ℕ) = p
        constructor
        · intro hc
          exact absurd hc (by simp)
        · intro hc
          exact absurd hc.symm (by omega : p ≠ 0))
  exact ⟨h.1, h.2.1⟩

/-- Claim C5 witness: patience 1, threshold 0, constant losses over 2
epochs — the first epoch improves on `es_loss = inf`, the second fails to
improve, exhausting the patience. -/
theorem c5_early_stopping_witness :
    1 ≤ 1 ∧ (0 : ℚ) ≤ 0 ∧
    ((fit_es ((1 : ℕ) : ℤ) 0 (fun _ => 0) 2).1 =
      (spec_es 1 0 (fun _ => 0) 2).1 ∧
    ((fit_es ((1 : ℕ) : ℤ) 0 (fun _ => 0) 2).2.esStop = true ↔
      (spec_es 1 0 (fun _ => 0) 2).2.fails = 1)) :=
  ⟨le_refl 1, le_refl 0,
    c5_early_stopping 1 0 (fun _ => 0) 2 (le_refl 1) (le_refl 0)⟩

/-- The root-variant loop preserves NaN-freeness of the probability row:
a step either reverts to the previous row (which is NaN-free by
assumption) and breaks, or continues with a freshly checked NaN-free
row. -/
theorem x2pJobFLoop_nanfree (f : FOps) (D : List ℚ) (logU tol : ℚ)
    (maxIter : ℕ) :
    ∀ fuel (s : FState), s.thisP.any FVal.isnan = false →
      (x2pJobFLoop f D logU tol maxIter fuel s).thisP.any FVal.isnan =
        false := by
  intro fuel
  induction fuel with
  | zero => intro s hs; exact hs
  | succ fuel ih =>
    intro s hs
    rw [x2pJobFLoop]
    by_cases hc : (decide (s.tries < maxIter) &&
        FVal.lt (FVal.fin tol)
          (FVal.abs (FVal.sub s.H (FVal.fin logU)))) = true
    · rw [if_pos hc]
      by_cases hnan :
          (HbetaF f D (if FVal.lt (FVal.fin 0) (FVal.sub s.H (FVal.fin logU)) then
            match s.betaMax with
            | none => (s.beta * 2, some s.beta, s.betaMax)
            | some bM => ((s.beta + bM) / 2, some s.beta, s.betaMax)
          else
            match s.betaMin with
            | none => (s.beta / 2, s.betaMin, some s.beta)
            | some bm => ((s.beta + bm) / 2, s.betaMin, some s.beta)).1).2.any
            FVal.isnan = true
      · rw [if_pos hnan]
        exact hs
      · rw [if_neg hnan]
        exact ih _ (Bool.not_eq_true _ ▸ hnan)
    · rw [if_neg hc]
      exact hs

/-- Claim C1 counterexample: on the distance row `[800, 800]` every
exponential underflows to `0.0` in float64, so the very first `Hbeta`
call divides `0` by `0` and the root-variant calibrator (the one that
HAS the NaN revert) returns a row of NaNs — the loop guard
`np.abs(Hdiff) > tol` is false for a NaN `Hdiff`, so the revert never
runs and no epsilon guards the division.  (`logU = 17/5 ≈ log 30`.) -/
theorem c1_counterexample :
    ((x2p_jobF cexFOps 0 underflowRow (17 / 5) 50 (1 / 100000)).2).any
      FVal.isnan = true := by
  with_unfolding_all decide

/-- Claim C1 (amended): the NaN revert protects only iterations after the
first — whenever the initial `Hbeta` probability row is finite, the
root-variant calibrator returns a NaN-free row: any later iteration that
produces NaNs reverts to the previous valid row and terminates early.
(The claim as stated fails: the first iteration is unguarded, there is no
epsilon on the division, and the msp variant has no revert at all.) -/
theorem c1_revert_keeps_row_finite (f : FOps) (i : ℕ) (Di : List ℚ)
    (logU : ℚ) (maxIter : ℕ) (tol : ℚ)
    (h : (HbetaF f Di 1).2.any FVal.isnan = false) :
    ((x2p_jobF f i Di logU maxIter tol).2).any FVal.isnan = false :=
  x2pJobFLoop_nanfree f Di logU tol maxIter maxIter
    ⟨1, none, none, (HbetaF f Di 1).1, (HbetaF f Di 1).2, 0⟩ h

/-- Claim C1 witness: on the benign row `[1, 1]` the initial probability
row is finite, so the calibrator's output row is NaN-free. -/
theorem c1_revert_keeps_row_finite_witness :
    (HbetaF cexFOps benignRow 1).2.any FVal.isnan = false ∧
    ((x2p_jobF cexFOps 0 benignRow (17 / 5) 50 (1 / 100000)).2).any
      FVal.isnan = false :=
  ⟨by with_unfolding_all decide,
    c1_revert_keeps_row_finite cexFOps 0 benignRow (17 / 5) 50 (1 / 100000)
      (by with_unfolding_all decide)⟩

end PTSNE
